import Mathlib

/-!
Verification of the traxis measurement GUI's computation layer.

The development shallowly embeds, in Lean, the code of
`src/traxis/graphics/markers.py` (the `MarkerList`/`TrackMarker` data model
and its operations, including the Qt `QLineF.angleTo` semantics used by
`TrackMarker.getAngle`) and of the three calculation handlers of
`src/traxis/gui/maingui.py` (`calcTrackMomentum`, `calcOptDensity`,
`calcAngle`).

Modelling conventions:
* Python floats are modelled as real numbers; Python float division, which
  raises `ZeroDivisionError` on a zero divisor (it never yields NaN or Inf),
  is modelled by `pydiv` returning `Except`.
* The calculator modules `traxis.calc.circlefit`, `traxis.calc.anglecalc`
  and `traxis.calc.optdensity` are imported by the GUI but are not part of
  the checked sources; every handler is therefore parametrised by oracle
  functions standing for `fitCircle`, `calc_momentum`, `calcBlackness`,
  `tangentCalc` and `openingAngle`, so the theorems hold for every possible
  behaviour of those modules.
* The calibration constants `constants.CMPERPX` and `constants.ERRCMPERPX`
  are passed as parameters (they are externally supplied configuration).
* The GUI reports errors by writing a NOTICE to the console and returning
  early; each distinct notice (and the uncaught `ZeroDivisionError`) is
  modelled as a constructor of `CalcNotice`.
-/

/-- Marker designation: the 'start' or 'end' role tag of
`TrackMarker.designation` (`None` is modelled by `Option.none`). The Python
strings 'start' and 'end' become `startPt` and `endPt` (`end` is reserved
in Lean). -/
inductive Desig where
  | startPt
  | endPt
deriving DecidableEq

/-- A `TrackMarker`: its unique id, the coordinates of its ellipse's center,
and its designation, as in `markers.py`. Presentation-only state (the
ellipse item, pen, selection) is omitted. -/
structure Marker where
  id : ℕ
  x : ℝ
  y : ℝ
  designation : Option Desig

namespace MarkerList

/-- The id assigned to a freshly added marker by `MarkerList.addMarker`:
the id of the last marker in the list plus one, or 1 if the list is empty
(`self.item(self.count()-1)` returns the last item, or None when empty). -/
def newMarkerId (l : List Marker) : ℕ :=
  match l.getLast? with
  | some lastItem => lastItem.id + 1
  | none => 1

/-- The `MarkerList.addMarker` operation: append a new `TrackMarker` with
the fresh id and no designation (the `TrackMarker` constructor sets
`self.designation = None`). -/
def addMarker (l : List Marker) (x y : ℝ) : List Marker :=
  l ++ [{ id := newMarkerId l, x := x, y := y, designation := none }]

/-- The `MarkerList.deleteMarker` operation: remove the marker at the given
row (`self.takeItem(self.row(marker))`). -/
def deleteMarker (l : List Marker) (row : ℕ) : List Marker :=
  l.eraseIdx row

/-- The `MarkerList.empty` operation: remove all markers (`self.clear()`). -/
def emptyOp (_l : List Marker) : List Marker :=
  []

/-- The `MarkerList.getStartPoint` lookup: the first marker whose
designation is 'start', if any. -/
def getStartPoint (l : List Marker) : Option Marker :=
  l.find? fun m => decide (m.designation = some Desig.startPt)

/-- The `MarkerList.getEndPoint` lookup: the first marker whose designation
is 'end', if any. -/
def getEndPoint (l : List Marker) : Option Marker :=
  l.find? fun m => decide (m.designation = some Desig.endPt)

/-- Setting the designation of the marker at a given row, leaving the rest
of the list unchanged (`TrackMarker.setDesignation`; the argument is always
one of None, 'start', 'end' here, so the validity check of
`setDesignation` passes). Out-of-range rows leave the list unchanged. -/
def setDesignationAt : List Marker → ℕ → Option Desig → List Marker
  | [], _, _ => []
  | m :: ms, 0, d => { m with designation := d } :: ms
  | m :: ms, Nat.succ n, d => m :: setDesignationAt ms n d

/-- Clearing the designation of the first marker designated 'start', as
`MarkerList.setStartPoint` does via `getStartPoint` followed by
`oldStartPoint.setDesignation()`. -/
def clearFirstStart : List Marker → List Marker
  | [] => []
  | m :: ms =>
    if m.designation = some Desig.startPt then
      { m with designation := none } :: ms
    else
      m :: clearFirstStart ms

/-- Clearing the designation of the first marker designated 'end', as
`MarkerList.setEndPoint` does. -/
def clearFirstEnd : List Marker → List Marker
  | [] => []
  | m :: ms =>
    if m.designation = some Desig.endPt then
      { m with designation := none } :: ms
    else
      m :: clearFirstEnd ms

/-- The `MarkerList.setStartPoint` operation on the marker at `row`: clear
the previous start point's designation (if any), then designate the given
marker as 'start'. Positions are unaffected by the clearing, so the row
still addresses the same marker. -/
def setStartPoint (l : List Marker) (row : ℕ) : List Marker :=
  setDesignationAt (clearFirstStart l) row (some Desig.startPt)

/-- The `MarkerList.setEndPoint` operation on the marker at `row`: clear
the previous end point's designation (if any), then designate the given
marker as 'end'. -/
def setEndPoint (l : List Marker) (row : ℕ) : List Marker :=
  setDesignationAt (clearFirstEnd l) row (some Desig.endPt)

/-- Number of markers designated 'start'. -/
def startCount (l : List Marker) : ℕ :=
  l.countP fun m => decide (m.designation = some Desig.startPt)

/-- Number of markers designated 'end'. -/
def endCount (l : List Marker) : ℕ :=
  l.countP fun m => decide (m.designation = some Desig.endPt)

/-- The designation invariant: at most one marker is designated 'start'
and at most one is designated 'end'. -/
def desigInvariant (l : List Marker) : Prop :=
  startCount l ≤ 1 ∧ endCount l ≤ 1

instance (l : List Marker) : Decidable (desigInvariant l) := by
  unfold desigInvariant
  infer_instance

/-- The id-ordering invariant: marker ids appear in strictly increasing
order along the list. -/
def idsIncreasing (l : List Marker) : Prop :=
  (l.map Marker.id).Pairwise (· < ·)

instance (l : List Marker) : Decidable (idsIncreasing l) := by
  unfold idsIncreasing
  exact List.instDecidablePairwise _

end MarkerList

/-- The distinct outcomes of a calculation handler that does not run to
completion: each NOTICE message written by `displayMessage` followed by an
early return, and an uncaught Python `ZeroDivisionError`. -/
inductive CalcNotice where
  /-- NOTICE: At least 3 points are required to calculate momentum. -/
  | insufficientPoints
  /-- NOTICE: Track start point must be selected first. -/
  | noStartPoint
  /-- NOTICE: Track end point must be selected first. -/
  | noEndPoint
  /-- NOTICE: Track momentum must be calculated first. -/
  | momentumNotCalculated
  /-- NOTICE: dL must be non-zero. -/
  | invalidInput
  /-- NOTICE: Angle Reference Line must be drawn first. -/
  | incompleteReference
  /-- An uncaught ZeroDivisionError raised by Python float division. -/
  | zeroDivision
deriving DecidableEq

/-- Python float division: raises `ZeroDivisionError` when the divisor is
zero, otherwise returns the exact quotient. -/
noncomputable def pydiv (x y : ℝ) : Except CalcNotice ℝ :=
  if y = 0 then Except.error CalcNotice.zeroDivision else Except.ok (x / y)

/-- The state read by `MainWidget.calcOptDensity`: the fitted circle's
radius (`self.fittedCircle['radius']`), the momentum arc if it has been
drawn (`self.momentumArc.centralArc`, storing its start and span angles in
millionths of a degree, as `QGraphicsArcItem` does), and the parsed value
of the dL text box (`none` models text that `float()` rejects). -/
structure OptDensityState where
  radius : ℝ
  arc : Option (ℝ × ℝ)
  dlText : Option ℝ

/-- The `MainWidget.calcOptDensity` handler. `bl` is the oracle for
`optdensity.calcBlackness`, taking the dL value and the arc's start and
span angles in degrees and returning the pair (blackness, blacknessErr);
the image and fitted-circle arguments of the real function are fixed
within one call and are absorbed into the oracle. `cmPerPx` and
`errCmPerPx` are the calibration constants `constants.CMPERPX` and
`constants.ERRCMPERPX`. Returns the pair (optDensity, optDensityErr) that
the handler prints, or the notice/exception on which it stops. -/
noncomputable def calcOptDensity (bl : ℝ → ℝ → ℝ → ℝ × ℝ)
    (cmPerPx errCmPerPx : ℝ) (s : OptDensityState) :
    Except CalcNotice (ℝ × ℝ) :=
  match s.arc with
  | none => Except.error CalcNotice.momentumNotCalculated
  | some a =>
    let dl := s.dlText.getD 0
    if dl = 0 then Except.error CalcNotice.invalidInput
    else
      let b := (bl dl (a.1 / 1000000) (a.2 / 1000000)).1
      let bErr := (bl dl (a.1 / 1000000) (a.2 / 1000000)).2
      let trackLengthPx := s.radius * (a.2 / 1000000) * (Real.pi / 180)
      let trackLengthCm := trackLengthPx * cmPerPx
      let trackLengthCmErr := trackLengthPx * errCmPerPx
      (pydiv b trackLengthCm).bind fun optDensity =>
      (pydiv trackLengthCmErr trackLengthCm).bind fun r1 =>
      (pydiv bErr b).bind fun r2 =>
      Except.ok (optDensity, optDensity * Real.sqrt (r1 ^ 2 + r2 ^ 2))

/-- The plane vector (dx, dy) of a `QLineF`, viewed as the complex number
whose argument Qt's `QLineF.angle()` measures: Qt computes
`atan2(-dy, dx)`, the sign flip accounting for the screen's downward
y axis, which is the argument of the complex number dx - dy*i. -/
def qVec (dx dy : ℝ) : ℂ :=
  ⟨dx, -dy⟩

/-- The raw Qt line angle in degrees, before normalization:
`atan2(-dy, dx) * 360 / (2*pi)`. Lies in (-180, 180]. -/
noncomputable def qAngleDeg (dx dy : ℝ) : ℝ :=
  Complex.arg (qVec dx dy) * 180 / Real.pi

/-- Qt's angle normalization step: add 360 to a negative angle
(`theta < 0 ? theta + 360 : theta`). -/
noncomputable def normalize360 (θ : ℝ) : ℝ :=
  if θ < 0 then θ + 360 else θ

/-- The semantics of `QLineF.angle()` for the line with direction vector
(dx, dy): the normalized angle, with the boundary value 360 mapped back
to 0 (Qt's `qFuzzyCompare(theta_normalized, 360)` check, exact in this
real-number model). -/
noncomputable def qlineAngle (dx dy : ℝ) : ℝ :=
  if normalize360 (qAngleDeg dx dy) = 360 then 0
  else normalize360 (qAngleDeg dx dy)

/-- The semantics of `QLineF.angleTo` for lines with direction vectors
(dx1, dy1) (the receiver) and (dx2, dy2) (the argument): 0 when either
line is null, otherwise the difference of the two line angles normalized
into [0, 360) (with Qt's check mapping an exact difference of 360 to 0). -/
noncomputable def angleTo (dx1 dy1 dx2 dy2 : ℝ) : ℝ :=
  if (dx1 = 0 ∧ dy1 = 0) ∨ (dx2 = 0 ∧ dy2 = 0) then 0
  else if qlineAngle dx2 dy2 - qlineAngle dx1 dy1 = 360 then 0
  else normalize360 (qlineAngle dx2 dy2 - qlineAngle dx1 dy1)

namespace TrackMarker

/-- The reference vector used by `TrackMarker.getAngle`: the vector from
the origin to the reference marker when one is given, otherwise the
horizontal polar axis vector from the origin to (origin.x + 1, origin.y). -/
def refVec (origin : ℝ × ℝ) (referenceMarker : Option Marker) : ℝ × ℝ :=
  match referenceMarker with
  | some r => (r.x - origin.1, r.y - origin.2)
  | none => (origin.1 + 1 - origin.1, origin.2 - origin.2)

/-- The `TrackMarker.getAngle` method: the angle, per `QLineF.angleTo`,
from the reference vector to the vector joining the origin to the marker. -/
noncomputable def getAngle (m : Marker) (origin : ℝ × ℝ)
    (referenceMarker : Option Marker) : ℝ :=
  angleTo (refVec origin referenceMarker).1 (refVec origin referenceMarker).2
    (m.x - origin.1) (m.y - origin.2)

end TrackMarker

/-- The fitted-circle record returned by `circlefit.fitCircle` (the keys
the caller reads; the caller-added cm keys appear in `MomentumOutput`). -/
structure FittedCircle where
  centerX : ℝ
  centerY : ℝ
  centerXErr : ℝ
  centerYErr : ℝ
  radius : ℝ
  radiusErr : ℝ

/-- Everything `MainWidget.calcTrackMomentum` computes and displays after
its input checks pass: the fitted circle, the caller-side pixel-to-cm
conversions, the arc angles, the track length, and the momentum triple. -/
structure MomentumOutput where
  circle : FittedCircle
  cmRadius : ℝ
  cmRadiusErr : ℝ
  cmRadiusCal : ℝ
  startAngle : ℝ
  spanAngle : ℝ
  trackLengthPx : ℝ
  trackLengthCm : ℝ
  trackLengthCmErr : ℝ
  momentum : ℝ
  mStatErr : ℝ
  mCalErr : ℝ

/-- The `MainWidget.calcTrackMomentum` handler. `fit` is the oracle for
`circlefit.fitCircle` and `mom` the oracle for `circlefit.calc_momentum`
(returning momentum, statistical error, calibration error); `cmPerPx` and
`errCmPerPx` are `constants.CMPERPX` and `constants.ERRCMPERPX`. The dL
parse and the drawing of the momentum arc affect only the display and are
omitted. Returns the computed record, or the notice on which the handler
stops. -/
noncomputable def calcTrackMomentum (fit : List Marker → FittedCircle)
    (mom : ℝ → ℝ → ℝ × ℝ × ℝ) (cmPerPx errCmPerPx : ℝ)
    (markers : List Marker) : Except CalcNotice MomentumOutput :=
  if markers.length < 3 then Except.error CalcNotice.insufficientPoints
  else
    match MarkerList.getStartPoint markers with
    | none => Except.error CalcNotice.noStartPoint
    | some sp =>
      match MarkerList.getEndPoint markers with
      | none => Except.error CalcNotice.noEndPoint
      | some ep =>
        let c := fit markers
        let startAngle := TrackMarker.getAngle sp (c.centerX, c.centerY) none
        let spanAngle :=
          TrackMarker.getAngle ep (c.centerX, c.centerY) (some sp)
        let trackLengthPx := c.radius * spanAngle * (Real.pi / 180)
        let m := mom c.radius c.radiusErr
        Except.ok
          { circle := c
            cmRadius := c.radius * cmPerPx
            cmRadiusErr := c.radiusErr * cmPerPx
            cmRadiusCal := c.radius * errCmPerPx
            startAngle := startAngle
            spanAngle := spanAngle
            trackLengthPx := trackLengthPx
            trackLengthCm := trackLengthPx * cmPerPx
            trackLengthCmErr := trackLengthPx * errCmPerPx
            momentum := m.1
            mStatErr := m.2.1
            mCalErr := m.2.2 }

/-- The `MainWidget.calcAngle` handler. `T` is the (abstract) type of the
tangent lines produced by `anglecalc.tangentCalc` (oracle `tang`);
`opening` is the oracle for `anglecalc.openingAngle`, receiving the three
tangent lines and the reference line's initial and final points and
returning (angle, angleErr). Returns the pair the handler prints, or the
notice on which it stops. -/
noncomputable def calcAngle {T : Type} (tang : FittedCircle → Marker → T × T × T)
    (opening : T → T → T → (ℝ × ℝ) × (ℝ × ℝ) → ℝ × ℝ)
    (circle : FittedCircle) (arc : Option (ℝ × ℝ)) (markers : List Marker)
    (refInitialPoint : ℝ × ℝ) (refFinalPoint : Option (ℝ × ℝ)) :
    Except CalcNotice (ℝ × ℝ) :=
  match arc with
  | none => Except.error CalcNotice.momentumNotCalculated
  | some _ =>
    match MarkerList.getStartPoint markers with
    | none => Except.error CalcNotice.noStartPoint
    | some sp =>
      match refFinalPoint with
      | none => Except.error CalcNotice.incompleteReference
      | some fp =>
        let t := tang circle sp
        Except.ok (opening t.1 t.2.1 t.2.2 (refInitialPoint, fp))

/-- C4: for every marker list containing fewer than 3 markers, the momentum
calculation fails with the insufficient-points notice (at least 3 points
are required), and no circle is fitted: the result is this error for every
possible behaviour of the circle-fitting oracle, which is never consulted. -/
theorem calcTrackMomentum_insufficientPoints
    (fit : List Marker → FittedCircle) (mom : ℝ → ℝ → ℝ × ℝ × ℝ)
    (cmPerPx errCmPerPx : ℝ) (markers : List Marker)
    (h : markers.length < 3) :
    calcTrackMomentum fit mom cmPerPx errCmPerPx markers =
      Except.error CalcNotice.insufficientPoints := by
  simp [calcTrackMomentum, if_pos h]

/-- Witness for C4: a two-marker list is rejected. -/
theorem calcTrackMomentum_insufficientPoints_witness :
    calcTrackMomentum (fun _ => ⟨0, 0, 0, 0, 1, 0⟩) (fun _ _ => (0, 0, 0)) 1 0
        [⟨1, 0, 0, none⟩, ⟨2, 1, 1, none⟩] =
      Except.error CalcNotice.insufficientPoints :=
  calcTrackMomentum_insufficientPoints _ _ _ _ _ (by norm_num)

/-- C8: with at least 3 markers, the momentum calculation still refuses to
run unless a start point and an end point are designated: it stops with
the corresponding notice, the fit oracle is never consulted (the result is
the same error for every oracle), and, the handler being modelled as a
pure function that returns before computing anything, no state changes. -/
theorem calcTrackMomentum_requires_designated_endpoints
    (fit : List Marker → FittedCircle) (mom : ℝ → ℝ → ℝ × ℝ × ℝ)
    (cmPerPx errCmPerPx : ℝ) (markers : List Marker)
    (h3 : ¬ markers.length < 3)
    (h : MarkerList.getStartPoint markers = none ∨
         MarkerList.getEndPoint markers = none) :
    calcTrackMomentum fit mom cmPerPx errCmPerPx markers =
        Except.error CalcNotice.noStartPoint ∨
      calcTrackMomentum fit mom cmPerPx errCmPerPx markers =
        Except.error CalcNotice.noEndPoint := by
  rcases hs : MarkerList.getStartPoint markers with _ | sp
  · left
    simp [calcTrackMomentum, if_neg h3, hs]
  · rcases h with h | he
    · rw [hs] at h
      exact absurd h (by simp)
    · right
      simp [calcTrackMomentum, if_neg h3, hs, he]

/-- Witness for C8: three markers, none designated. -/
theorem calcTrackMomentum_requires_designated_endpoints_witness :
    calcTrackMomentum (fun _ => ⟨0, 0, 0, 0, 1, 0⟩) (fun _ _ => (0, 0, 0)) 1 0
          [⟨1, 0, 0, none⟩, ⟨2, 1, 1, none⟩, ⟨3, 2, 0, none⟩] =
        Except.error CalcNotice.noStartPoint ∨
      calcTrackMomentum (fun _ => ⟨0, 0, 0, 0, 1, 0⟩) (fun _ _ => (0, 0, 0)) 1 0
          [⟨1, 0, 0, none⟩, ⟨2, 1, 1, none⟩, ⟨3, 2, 0, none⟩] =
        Except.error CalcNotice.noEndPoint :=
  calcTrackMomentum_requires_designated_endpoints _ _ _ _ _
    (by norm_num) (Or.inl rfl)

/-- C7: once the input checks pass, the pixel-to-physical conversions the
caller performs are plain linear multiplications by the externally
supplied calibration constants: cmRadius = radius * CMPERPX, cmRadiusErr =
radiusErr * CMPERPX, cmRadiusCal = radius * ERRCMPERPX, trackLengthCm =
trackLengthPx * CMPERPX and trackLengthCmErr = trackLengthPx * ERRCMPERPX,
for every fitted circle (the fit oracle is universally quantified). -/
theorem calcTrackMomentum_linear_unit_conversion
    (fit : List Marker → FittedCircle) (mom : ℝ → ℝ → ℝ × ℝ × ℝ)
    (cmPerPx errCmPerPx : ℝ) (markers : List Marker) (sp ep : Marker)
    (h3 : ¬ markers.length < 3)
    (hs : MarkerList.getStartPoint markers = some sp)
    (he : MarkerList.getEndPoint markers = some ep) :
    calcTrackMomentum fit mom cmPerPx errCmPerPx markers =
      Except.ok
        { circle := fit markers
          cmRadius := (fit markers).radius * cmPerPx
          cmRadiusErr := (fit markers).radiusErr * cmPerPx
          cmRadiusCal := (fit markers).radius * errCmPerPx
          startAngle := TrackMarker.getAngle sp
            ((fit markers).centerX, (fit markers).centerY) none
          spanAngle := TrackMarker.getAngle ep
            ((fit markers).centerX, (fit markers).centerY) (some sp)
          trackLengthPx := (fit markers).radius *
            TrackMarker.getAngle ep
              ((fit markers).centerX, (fit markers).centerY) (some sp) *
            (Real.pi / 180)
          trackLengthCm := (fit markers).radius *
            TrackMarker.getAngle ep
              ((fit markers).centerX, (fit markers).centerY) (some sp) *
            (Real.pi / 180) * cmPerPx
          trackLengthCmErr := (fit markers).radius *
            TrackMarker.getAngle ep
              ((fit markers).centerX, (fit markers).centerY) (some sp) *
            (Real.pi / 180) * errCmPerPx
          momentum := (mom (fit markers).radius (fit markers).radiusErr).1
          mStatErr := (mom (fit markers).radius (fit markers).radiusErr).2.1
          mCalErr := (mom (fit markers).radius (fit markers).radiusErr).2.2 } := by
  simp [calcTrackMomentum, if_neg h3, hs, he]

/-- Witness for C7: three markers with designated start and end points;
with radius 1 and constants 2 and 3, cmRadius is 2 and cmRadiusCal is 3. -/
theorem calcTrackMomentum_linear_unit_conversion_witness :
    ∃ out : MomentumOutput,
      calcTrackMomentum (fun _ => ⟨0, 0, 0, 0, 1, 0⟩) (fun _ _ => (0, 0, 0))
          2 3 [⟨1, 0, 0, some Desig.startPt⟩, ⟨2, 1, 1, none⟩,
               ⟨3, 2, 0, some Desig.endPt⟩] = Except.ok out ∧
      out.cmRadius = 2 ∧ out.cmRadiusErr = 0 ∧ out.cmRadiusCal = 3 ∧
      out.trackLengthCm = out.trackLengthPx * 2 ∧
      out.trackLengthCmErr = out.trackLengthPx * 3 := by
  refine ⟨_, calcTrackMomentum_linear_unit_conversion _ _ 2 3 _
    ⟨1, 0, 0, some Desig.startPt⟩ ⟨3, 2, 0, some Desig.endPt⟩
    (by norm_num) rfl rfl, ?_, ?_, ?_, ?_, ?_⟩ <;> norm_num

/-- C5: an optical-density request whose dL input parses to zero — or does
not parse, in which case the handler falls back to zero — stops at the
dL-must-be-non-zero notice (the spec's InvalidInputError), provided the
request got past the preceding momentum-arc check; no blackness or density
is computed: the blackness oracle is universally quantified and never
consulted. -/
theorem calcOptDensity_dl_zero
    (bl : ℝ → ℝ → ℝ → ℝ × ℝ) (cmPerPx errCmPerPx : ℝ)
    (s : OptDensityState) (a : ℝ × ℝ)
    (harc : s.arc = some a) (hdl : s.dlText.getD 0 = 0) :
    calcOptDensity bl cmPerPx errCmPerPx s =
      Except.error CalcNotice.invalidInput := by
  obtain ⟨r, arc, dlt⟩ := s
  simp only at harc hdl
  subst harc
  simp [calcOptDensity, hdl]

/-- Witness for C5: non-numeric dL text (modelled by `none`). -/
theorem calcOptDensity_dl_zero_witness :
    calcOptDensity (fun _ _ _ => (7, 1)) 1 0 ⟨5, some (0, 90000000), none⟩ =
      Except.error CalcNotice.invalidInput :=
  calcOptDensity_dl_zero _ _ _ _ (0, 90000000) rfl rfl

/-- C6: an opening-angle request made while the reference line's final
point is unset stops at the reference-line-must-be-drawn notice (the
spec's IncompleteReferenceError), provided it got past the preceding
momentum-arc and start-point checks; no tangent or angle is computed: the
tangent and opening-angle oracles are universally quantified and never
consulted. -/
theorem calcAngle_incompleteReference {T : Type}
    (tang : FittedCircle → Marker → T × T × T)
    (opening : T → T → T → (ℝ × ℝ) × (ℝ × ℝ) → ℝ × ℝ)
    (circle : FittedCircle) (a : ℝ × ℝ) (markers : List Marker)
    (refInitialPoint : ℝ × ℝ) (sp : Marker)
    (hs : MarkerList.getStartPoint markers = some sp) :
    calcAngle tang opening circle (some a) markers refInitialPoint none =
      Except.error CalcNotice.incompleteReference := by
  simp [calcAngle, hs]

/-- Witness for C6: one designated start marker, reference line unfinished. -/
theorem calcAngle_incompleteReference_witness :
    calcAngle (T := Unit) (fun _ _ => ((), (), ()))
        (fun _ _ _ _ => (0, 0)) ⟨0, 0, 0, 0, 1, 0⟩ (some (0, 90000000))
        [⟨1, 0, 0, some Desig.startPt⟩] (0, 0) none =
      Except.error CalcNotice.incompleteReference :=
  calcAngle_incompleteReference _ _ _ (0, 90000000) _ (0, 0)
    ⟨1, 0, 0, some Desig.startPt⟩ rfl

/-- C1: when the optical-density handler gets past its input checks and
combines the blackness-integration results, the density it prints equals
blackness divided by the track length in cm, and the density error equals
density times the square root of the sum of the squared relative errors of
the length and of the blackness (independent relative errors combined in
quadrature), for every call with non-zero length and blackness. -/
theorem calcOptDensity_quadrature
    (bl : ℝ → ℝ → ℝ → ℝ × ℝ) (cmPerPx errCmPerPx : ℝ)
    (s : OptDensityState) (a : ℝ × ℝ)
    (blackness blacknessErr trackLengthCm trackLengthCmErr : ℝ)
    (harc : s.arc = some a)
    (hdl : s.dlText.getD 0 ≠ 0)
    (hb1 : blackness = (bl (s.dlText.getD 0) (a.1 / 1000000) (a.2 / 1000000)).1)
    (hb2 : blacknessErr =
      (bl (s.dlText.getD 0) (a.1 / 1000000) (a.2 / 1000000)).2)
    (hL1 : trackLengthCm =
      s.radius * (a.2 / 1000000) * (Real.pi / 180) * cmPerPx)
    (hL2 : trackLengthCmErr =
      s.radius * (a.2 / 1000000) * (Real.pi / 180) * errCmPerPx)
    (hL : trackLengthCm ≠ 0) (hb : blackness ≠ 0) :
    calcOptDensity bl cmPerPx errCmPerPx s =
      Except.ok (blackness / trackLengthCm,
        blackness / trackLengthCm *
          Real.sqrt ((trackLengthCmErr / trackLengthCm) ^ 2 +
            (blacknessErr / blackness) ^ 2)) := by
  unfold calcOptDensity
  rw [harc]
  dsimp only
  rw [if_neg hdl, ← hb1, ← hb2, ← hL1, ← hL2]
  simp only [pydiv, if_neg hL, if_neg hb, Except.bind]

/-- Witness for C1: radius 1, a span of one degree, dL 1, blackness 1 with
error 0, calibration constants 1 and 0. -/
theorem calcOptDensity_quadrature_witness :
    calcOptDensity (fun _ _ _ => (1, 0)) 1 0
        { radius := 1, arc := some (0, 1000000), dlText := some 1 } =
      Except.ok (1 / (1 * (1000000 / 1000000) * (Real.pi / 180) * 1),
        1 / (1 * (1000000 / 1000000) * (Real.pi / 180) * 1) *
          Real.sqrt ((1 * (1000000 / 1000000) * (Real.pi / 180) * 0 /
              (1 * (1000000 / 1000000) * (Real.pi / 180) * 1)) ^ 2 +
            (0 / 1) ^ 2)) :=
  calcOptDensity_quadrature _ 1 0 _ (0, 1000000) 1 0
    (1 * (1000000 / 1000000) * (Real.pi / 180) * 1)
    (1 * (1000000 / 1000000) * (Real.pi / 180) * 0)
    rfl (by norm_num) rfl rfl rfl rfl
    (by positivity) one_ne_zero

/-- Counterexample to C2 as stated: an optical-density request whose arc
has span angle zero is not stopped by any InvalidInputError-style check —
the handler divides by the zero track length instead (see the amended
theorem): at this concrete input the result is not the invalid-input
notice. -/
theorem calcOptDensity_zero_span_counterexample :
    calcOptDensity (fun _ _ _ => (1, 0)) 1 0
        { radius := 1, arc := some (0, 0), dlText := some 1 } ≠
      Except.error CalcNotice.invalidInput := by
  have h : calcOptDensity (fun _ _ _ => (1, 0)) 1 0
      { radius := 1, arc := some (0, 0), dlText := some 1 } =
      Except.error CalcNotice.zeroDivision := by
    unfold calcOptDensity
    dsimp only
    rw [if_neg (by norm_num : ¬ ((some (1 : ℝ)).getD 0 = 0))]
    have hL : (1 : ℝ) * ((0 : ℝ) / 1000000) * (Real.pi / 180) * 1 = 0 := by
      norm_num
    simp only [pydiv, if_pos hL, Except.bind]
  rw [h]
  simp

/-- C2 as amended: for every optical-density request (past the arc and dL
checks) whose arc has span angle zero, or whose accumulated blackness is
zero, the handler raises an uncaught ZeroDivisionError — there is no
InvalidInputError-style notice for this case, and no NaN or infinite
density is ever produced (the computation stops at the division). -/
theorem calcOptDensity_zero_span_or_blackness_raises
    (bl : ℝ → ℝ → ℝ → ℝ × ℝ) (cmPerPx errCmPerPx : ℝ)
    (s : OptDensityState) (a : ℝ × ℝ)
    (harc : s.arc = some a) (hdl : s.dlText.getD 0 ≠ 0)
    (h : a.2 = 0 ∨ (bl (s.dlText.getD 0) (a.1 / 1000000) (a.2 / 1000000)).1 = 0) :
    calcOptDensity bl cmPerPx errCmPerPx s =
      Except.error CalcNotice.zeroDivision := by
  unfold calcOptDensity
  rw [harc]
  dsimp only
  rw [if_neg hdl]
  rcases h with h | h
  · have hL : s.radius * (a.2 / 1000000) * (Real.pi / 180) * cmPerPx = 0 := by
      rw [h]
      norm_num
    simp only [pydiv, if_pos hL, Except.bind]
  · by_cases hL : s.radius * (a.2 / 1000000) * (Real.pi / 180) * cmPerPx = 0
    · simp only [pydiv, if_pos hL, Except.bind]
    · simp only [pydiv, if_neg hL, if_pos h, Except.bind]

/-- Witness for the amended C2: span angle zero with blackness 1. -/
theorem calcOptDensity_zero_span_or_blackness_raises_witness :
    calcOptDensity (fun _ _ _ => (1, 0)) 1 0
        { radius := 1, arc := some (0, 0), dlText := some 1 } =
      Except.error CalcNotice.zeroDivision :=
  calcOptDensity_zero_span_or_blackness_raises _ 1 0 _ (0, 0)
    rfl (by norm_num) (Or.inl rfl)

namespace MarkerList

lemma startCount_cons (m : Marker) (ms : List Marker) :
    startCount (m :: ms) =
      startCount ms + if m.designation = some Desig.startPt then 1 else 0 := by
  simp [startCount, List.countP_cons]

lemma endCount_cons (m : Marker) (ms : List Marker) :
    endCount (m :: ms) =
      endCount ms + if m.designation = some Desig.endPt then 1 else 0 := by
  simp [endCount, List.countP_cons]

lemma startCount_clearFirstStart (l : List Marker) (h : startCount l ≤ 1) :
    startCount (clearFirstStart l) = 0 := by
  induction l with
  | nil => rfl
  | cons m ms ih =>
    rw [startCount_cons] at h
    by_cases hm : m.designation = some Desig.startPt
    · rw [if_pos hm] at h
      simp only [clearFirstStart, if_pos hm, startCount_cons]
      have hms : startCount ms = 0 := by omega
      simp [hms]
    · rw [if_neg hm] at h
      simp only [clearFirstStart, if_neg hm, startCount_cons, if_neg hm]
      simp [ih (by omega)]

lemma endCount_clearFirstStart (l : List Marker) :
    endCount (clearFirstStart l) = endCount l := by
  induction l with
  | nil => rfl
  | cons m ms ih =>
    by_cases hm : m.designation = some Desig.startPt
    · simp only [clearFirstStart, if_pos hm]
      rw [endCount_cons, endCount_cons, hm]
      simp
    · simp only [clearFirstStart, if_neg hm, endCount_cons, ih]

lemma endCount_clearFirstEnd (l : List Marker) (h : endCount l ≤ 1) :
    endCount (clearFirstEnd l) = 0 := by
  induction l with
  | nil => rfl
  | cons m ms ih =>
    rw [endCount_cons] at h
    by_cases hm : m.designation = some Desig.endPt
    · rw [if_pos hm] at h
      simp only [clearFirstEnd, if_pos hm, endCount_cons]
      have hms : endCount ms = 0 := by omega
      simp [hms]
    · rw [if_neg hm] at h
      simp only [clearFirstEnd, if_neg hm, endCount_cons, if_neg hm]
      simp [ih (by omega)]

lemma startCount_clearFirstEnd (l : List Marker) :
    startCount (clearFirstEnd l) = startCount l := by
  induction l with
  | nil => rfl
  | cons m ms ih =>
    by_cases hm : m.designation = some Desig.endPt
    · simp only [clearFirstEnd, if_pos hm]
      rw [startCount_cons, startCount_cons, hm]
      simp
    · simp only [clearFirstEnd, if_neg hm, startCount_cons, ih]

lemma startCount_setDesignationAt (l : List Marker) (i : ℕ) (d : Option Desig) :
    startCount (setDesignationAt l i d) ≤
      startCount l + if d = some Desig.startPt then 1 else 0 := by
  induction l generalizing i with
  | nil => simp [setDesignationAt, startCount]
  | cons m ms ih =>
    cases i with
    | zero =>
      simp only [setDesignationAt, startCount_cons]
      split_ifs <;> omega
    | succ n =>
      simp only [setDesignationAt, startCount_cons]
      have := ih n
      split_ifs at * <;> omega

lemma endCount_setDesignationAt (l : List Marker) (i : ℕ) (d : Option Desig) :
    endCount (setDesignationAt l i d) ≤
      endCount l + if d = some Desig.endPt then 1 else 0 := by
  induction l generalizing i with
  | nil => simp [setDesignationAt, endCount]
  | cons m ms ih =>
    cases i with
    | zero =>
      simp only [setDesignationAt, endCount_cons]
      split_ifs <;> omega
    | succ n =>
      simp only [setDesignationAt, endCount_cons]
      have := ih n
      split_ifs at * <;> omega

lemma map_id_setDesignationAt (l : List Marker) (i : ℕ) (d : Option Desig) :
    (setDesignationAt l i d).map Marker.id = l.map Marker.id := by
  induction l generalizing i with
  | nil => rfl
  | cons m ms ih =>
    cases i with
    | zero => simp [setDesignationAt]
    | succ n => simp [setDesignationAt, ih n]

lemma map_id_clearFirstStart (l : List Marker) :
    (clearFirstStart l).map Marker.id = l.map Marker.id := by
  induction l with
  | nil => rfl
  | cons m ms ih =>
    by_cases hm : m.designation = some Desig.startPt
    · simp [clearFirstStart, if_pos hm]
    · simp [clearFirstStart, if_neg hm, ih]

lemma map_id_clearFirstEnd (l : List Marker) :
    (clearFirstEnd l).map Marker.id = l.map Marker.id := by
  induction l with
  | nil => rfl
  | cons m ms ih =>
    by_cases hm : m.designation = some Desig.endPt
    · simp [clearFirstEnd, if_pos hm]
    · simp [clearFirstEnd, if_neg hm, ih]

lemma map_eraseIdx (f : Marker → ℕ) (l : List Marker) (i : ℕ) :
    (l.eraseIdx i).map f = (l.map f).eraseIdx i := by
  induction l generalizing i with
  | nil => rfl
  | cons m ms ih =>
    cases i with
    | zero => rfl
    | succ n => simp [List.eraseIdx, ih n]

lemma id_lt_newMarkerId (l : List Marker) (h : idsIncreasing l) :
    ∀ m ∈ l, m.id < newMarkerId l := by
  rcases l.eq_nil_or_concat with rfl | ⟨L, b, rfl⟩
  · intro m hm
    simp at hm
  · intro m hm
    rw [List.concat_eq_append] at hm ⊢
    have hnew : newMarkerId (L ++ [b]) = b.id + 1 := by
      simp [newMarkerId, List.getLast?_concat]
    rw [hnew]
    rcases List.mem_append.mp hm with hm | hm
    · have hpw : (List.map Marker.id L ++ [b.id]).Pairwise (· < ·) := by
        simpa [idsIncreasing, List.concat_eq_append] using h
      have hb := (List.pairwise_append.mp hpw).2.2 m.id
        (List.mem_map_of_mem _ hm) b.id (by simp)
      omega
    · have : m = b := by simpa using hm
      subst this
      omega

end MarkerList

/-- C9: each MarkerList operation (addMarker, deleteMarker, empty,
setStartPoint, setEndPoint) preserves the invariant that at most one
marker is designated 'start' and at most one 'end'; addMarker appends a
marker with no designation, and setStartPoint/setEndPoint clear the
previous holder's designation before assigning the new one (visible in
their definitions, used by the preservation proofs). -/
theorem markerList_designation_invariant :
    (∀ (l : List Marker) (x y : ℝ), MarkerList.desigInvariant l →
        MarkerList.desigInvariant (MarkerList.addMarker l x y)) ∧
    (∀ (l : List Marker) (x y : ℝ), MarkerList.addMarker l x y =
        l ++ [{ id := MarkerList.newMarkerId l, x := x, y := y,
                designation := none }]) ∧
    (∀ (l : List Marker) (row : ℕ), MarkerList.desigInvariant l →
        MarkerList.desigInvariant (MarkerList.deleteMarker l row)) ∧
    (∀ l : List Marker, MarkerList.desigInvariant (MarkerList.emptyOp l)) ∧
    (∀ (l : List Marker) (row : ℕ), MarkerList.desigInvariant l →
        MarkerList.desigInvariant (MarkerList.setStartPoint l row)) ∧
    (∀ (l : List Marker) (row : ℕ), MarkerList.desigInvariant l →
        MarkerList.desigInvariant (MarkerList.setEndPoint l row)) := by
  refine ⟨?_, fun _ _ _ => rfl, ?_, ?_, ?_, ?_⟩
  · intro l x y ⟨hs, he⟩
    constructor
    · simpa [MarkerList.addMarker, MarkerList.startCount, List.countP_append]
        using hs
    · simpa [MarkerList.addMarker, MarkerList.endCount, List.countP_append]
        using he
  · intro l row ⟨hs, he⟩
    exact ⟨le_trans (List.Sublist.countP_le _ (List.eraseIdx_sublist l row)) hs,
      le_trans (List.Sublist.countP_le _ (List.eraseIdx_sublist l row)) he⟩
  · intro l
    exact ⟨by simp [MarkerList.emptyOp, MarkerList.startCount],
      by simp [MarkerList.emptyOp, MarkerList.endCount]⟩
  · intro l row ⟨hs, he⟩
    constructor
    · have h1 := MarkerList.startCount_setDesignationAt
        (MarkerList.clearFirstStart l) row (some Desig.startPt)
      rw [MarkerList.startCount_clearFirstStart l hs] at h1
      simpa [MarkerList.setStartPoint] using h1
    · have h1 := MarkerList.endCount_setDesignationAt
        (MarkerList.clearFirstStart l) row (some Desig.startPt)
      rw [MarkerList.endCount_clearFirstStart l] at h1
      simp only [MarkerList.setStartPoint]
      simp at h1
      omega
  · intro l row ⟨hs, he⟩
    constructor
    · have h1 := MarkerList.startCount_setDesignationAt
        (MarkerList.clearFirstEnd l) row (some Desig.endPt)
      rw [MarkerList.startCount_clearFirstEnd l] at h1
      simp only [MarkerList.setEndPoint]
      simp at h1
      omega
    · have h1 := MarkerList.endCount_setDesignationAt
        (MarkerList.clearFirstEnd l) row (some Desig.endPt)
      rw [MarkerList.endCount_clearFirstEnd l he] at h1
      simpa [MarkerList.setEndPoint] using h1

/-- Witness for C9: setStartPoint on a two-marker list that already has a
start point and an end point keeps the invariant. -/
theorem markerList_designation_invariant_witness :
    MarkerList.desigInvariant (MarkerList.setStartPoint
      [⟨1, 0, 0, some Desig.endPt⟩, ⟨2, 1, 0, some Desig.startPt⟩] 0) :=
  markerList_designation_invariant.2.2.2.2.1
    [⟨1, 0, 0, some Desig.endPt⟩, ⟨2, 1, 0, some Desig.startPt⟩] 0 (by decide)

/-- C10: each MarkerList operation preserves the invariant that marker ids
appear in strictly increasing order along the list (hence are unique);
addMarker assigns the new marker the last marker's id plus 1 (or 1 on an
empty list), which is strictly greater than every existing id (second
conjunct). -/
theorem markerList_ids_increasing_invariant :
    (∀ (l : List Marker) (x y : ℝ), MarkerList.idsIncreasing l →
        MarkerList.idsIncreasing (MarkerList.addMarker l x y)) ∧
    (∀ l : List Marker, MarkerList.idsIncreasing l →
        ∀ m ∈ l, m.id < MarkerList.newMarkerId l) ∧
    (∀ (l : List Marker) (row : ℕ), MarkerList.idsIncreasing l →
        MarkerList.idsIncreasing (MarkerList.deleteMarker l row)) ∧
    (∀ l : List Marker, MarkerList.idsIncreasing (MarkerList.emptyOp l)) ∧
    (∀ (l : List Marker) (row : ℕ), MarkerList.idsIncreasing l →
        MarkerList.idsIncreasing (MarkerList.setStartPoint l row)) ∧
    (∀ (l : List Marker) (row : ℕ), MarkerList.idsIncreasing l →
        MarkerList.idsIncreasing (MarkerList.setEndPoint l row)) := by
  refine ⟨?_, MarkerList.id_lt_newMarkerId, ?_, ?_, ?_, ?_⟩
  · intro l x y h
    have hlt := MarkerList.id_lt_newMarkerId l h
    simp only [MarkerList.idsIncreasing, MarkerList.addMarker,
      List.map_append] at h ⊢
    rw [List.pairwise_append]
    refine ⟨h, by simp, ?_⟩
    intro a ha b hb
    simp only [List.map_cons, List.map_nil, List.mem_singleton] at hb
    subst hb
    obtain ⟨m, hm, rfl⟩ := List.mem_map.mp ha
    exact hlt m hm
  · intro l row h
    simp only [MarkerList.idsIncreasing, MarkerList.deleteMarker,
      MarkerList.map_eraseIdx] at h ⊢
    exact List.Pairwise.sublist (List.eraseIdx_sublist _ row) h
  · intro l
    simp [MarkerList.idsIncreasing, MarkerList.emptyOp]
  · intro l row h
    simpa [MarkerList.idsIncreasing, MarkerList.setStartPoint,
      MarkerList.map_id_setDesignationAt, MarkerList.map_id_clearFirstStart]
      using h
  · intro l row h
    simpa [MarkerList.idsIncreasing, MarkerList.setEndPoint,
      MarkerList.map_id_setDesignationAt, MarkerList.map_id_clearFirstEnd]
      using h

/-- Witness for C10: adding a marker to a two-marker list with ids 1, 2
keeps the ids strictly increasing. -/
theorem markerList_ids_increasing_invariant_witness :
    MarkerList.idsIncreasing
      (MarkerList.addMarker [⟨1, 0, 0, none⟩, ⟨2, 1, 0, none⟩] 5 5) :=
  markerList_ids_increasing_invariant.1
    [⟨1, 0, 0, none⟩, ⟨2, 1, 0, none⟩] 5 5 (by decide)

lemma qVec_re (dx dy : ℝ) : (qVec dx dy).re = dx := rfl

lemma qVec_im (dx dy : ℝ) : (qVec dx dy).im = -dy := rfl

lemma qVec_ne_zero (dx dy : ℝ) (h : ¬(dx = 0 ∧ dy = 0)) : qVec dx dy ≠ 0 := by
  intro hz
  apply h
  constructor
  · have h1 := congrArg Complex.re hz
    simpa [qVec_re] using h1
  · have h1 := congrArg Complex.im hz
    simp [qVec_im] at h1
    exact h1

lemma qAngleDeg_le (dx dy : ℝ) : qAngleDeg dx dy ≤ 180 := by
  unfold qAngleDeg
  rw [div_le_iff₀ Real.pi_pos]
  have h := Complex.arg_le_pi (qVec dx dy)
  linarith

lemma neg_lt_qAngleDeg (dx dy : ℝ) : -180 < qAngleDeg dx dy := by
  unfold qAngleDeg
  rw [lt_div_iff₀ Real.pi_pos]
  have h := Complex.neg_pi_lt_arg (qVec dx dy)
  linarith

lemma qlineAngle_nonneg (dx dy : ℝ) : 0 ≤ qlineAngle dx dy := by
  have h1 := qAngleDeg_le dx dy
  have h2 := neg_lt_qAngleDeg dx dy
  unfold qlineAngle normalize360
  split_ifs <;> linarith

lemma qlineAngle_lt (dx dy : ℝ) : qlineAngle dx dy < 360 := by
  have h1 := qAngleDeg_le dx dy
  have h2 := neg_lt_qAngleDeg dx dy
  unfold qlineAngle normalize360
  split_ifs <;> linarith

lemma qlineAngle_sub (dx dy : ℝ) :
    ∃ j : ℤ, qlineAngle dx dy = qAngleDeg dx dy + 360 * j := by
  have h1 := qAngleDeg_le dx dy
  have h2 := neg_lt_qAngleDeg dx dy
  unfold qlineAngle normalize360
  by_cases hneg : qAngleDeg dx dy < 0
  · rw [if_pos hneg]
    by_cases h360 : qAngleDeg dx dy + 360 = 360
    · exact absurd (by linarith : qAngleDeg dx dy = 0) (by linarith)
    · rw [if_neg h360]
      exact ⟨1, by push_cast; ring⟩
  · rw [if_neg hneg]
    by_cases h360 : qAngleDeg dx dy = 360
    · rw [if_pos h360]
      exact ⟨-1, by rw [h360]; push_cast; ring⟩
    · rw [if_neg h360]
      exact ⟨0, by push_cast; ring⟩

lemma angleTo_nonneg (dx1 dy1 dx2 dy2 : ℝ) : 0 ≤ angleTo dx1 dy1 dx2 dy2 := by
  have h1 := qlineAngle_nonneg dx1 dy1
  have h2 := qlineAngle_lt dx1 dy1
  have h3 := qlineAngle_nonneg dx2 dy2
  have h4 := qlineAngle_lt dx2 dy2
  unfold angleTo normalize360
  split_ifs <;> linarith

lemma angleTo_lt (dx1 dy1 dx2 dy2 : ℝ) : angleTo dx1 dy1 dx2 dy2 < 360 := by
  have h1 := qlineAngle_nonneg dx1 dy1
  have h2 := qlineAngle_lt dx1 dy1
  have h3 := qlineAngle_nonneg dx2 dy2
  have h4 := qlineAngle_lt dx2 dy2
  unfold angleTo normalize360
  split_ifs <;> linarith

lemma angleTo_congr (dx1 dy1 dx2 dy2 : ℝ)
    (h1 : ¬(dx1 = 0 ∧ dy1 = 0)) (h2 : ¬(dx2 = 0 ∧ dy2 = 0)) :
    ∃ k : ℤ, angleTo dx1 dy1 dx2 dy2 =
      qAngleDeg dx2 dy2 - qAngleDeg dx1 dy1 + 360 * k := by
  obtain ⟨j1, hj1⟩ := qlineAngle_sub dx1 dy1
  obtain ⟨j2, hj2⟩ := qlineAngle_sub dx2 dy2
  unfold angleTo normalize360
  rw [if_neg (not_or.mpr ⟨h1, h2⟩)]
  split_ifs with h360 hneg
  · refine ⟨j2 - j1 - 1, ?_⟩
    rw [hj1, hj2] at h360
    push_cast
    linarith
  · refine ⟨j2 - j1 + 1, ?_⟩
    rw [hj1, hj2]
    push_cast
    ring
  · refine ⟨j2 - j1, ?_⟩
    rw [hj1, hj2]
    push_cast
    ring

lemma qAngleDeg_antiparallel (c vx vy : ℝ) (hc : 0 < c)
    (hv : ¬(vx = 0 ∧ vy = 0)) :
    ∃ k : ℤ, qAngleDeg (-(c * vx)) (-(c * vy)) =
      qAngleDeg vx vy + 180 + 360 * k := by
  have hz : qVec vx vy ≠ 0 := qVec_ne_zero vx vy hv
  have hw : qVec (-(c * vx)) (-(c * vy)) = -((c : ℂ) * qVec vx vy) := by
    simp only [Complex.ext_iff, Complex.neg_re, Complex.neg_im, Complex.mul_re,
      Complex.mul_im, Complex.ofReal_re, Complex.ofReal_im, qVec_re, qVec_im]
    constructor <;> ring
  have hcz : (c : ℂ) * qVec vx vy ≠ 0 :=
    mul_ne_zero (by exact_mod_cast hc.ne') hz
  have hangle := Complex.arg_neg_coe_angle hcz
  rw [Complex.arg_real_mul _ hc] at hangle
  rw [← Real.Angle.coe_add] at hangle
  obtain ⟨k, hk⟩ := Real.Angle.angle_eq_iff_two_pi_dvd_sub.mp hangle
  refine ⟨k, ?_⟩
  unfold qAngleDeg
  rw [hw]
  have hA : (-((c : ℂ) * qVec vx vy)).arg =
      (qVec vx vy).arg + Real.pi + 2 * Real.pi * k := by linarith
  rw [hA]
  field_simp
  ring

lemma qlineAngle_one_zero : qlineAngle 1 0 = 0 := by
  have h : qVec 1 0 = 1 := by
    simp [Complex.ext_iff, qVec_re, qVec_im]
  have hq : qAngleDeg 1 0 = 0 := by
    unfold qAngleDeg
    rw [h, Complex.arg_one]
    simp
  unfold qlineAngle normalize360
  rw [hq]
  norm_num

lemma angleTo_polar (dx dy : ℝ) (h : ¬(dx = 0 ∧ dy = 0)) :
    angleTo 1 0 dx dy = qlineAngle dx dy := by
  unfold angleTo
  rw [if_neg (not_or.mpr ⟨by norm_num, h⟩), qlineAngle_one_zero, sub_zero,
    if_neg (ne_of_lt (qlineAngle_lt dx dy))]
  unfold normalize360
  rw [if_neg (not_lt.mpr (qlineAngle_nonneg dx dy))]

/-- C3: TrackMarker.getAngle reports the angle swept counter-clockwise
from the reference vector to the marker vector in the half-open range
[0, 360): the result always lies in [0, 360) (first conjunct), and for
non-degenerate vectors it is congruent modulo 360 to the difference of the
two vectors' counter-clockwise polar angles (third conjunct). With no
reference marker the reference vector is the horizontal polar axis vector
(1, 0), so the result is the marker vector's own polar angle (second
conjunct); an antiparallel marker vector reports exactly 180 (last
conjunct). -/
theorem trackMarker_getAngle_ccw (m : Marker) (ox oy : ℝ)
    (ref : Option Marker) :
    (0 ≤ TrackMarker.getAngle m (ox, oy) ref ∧
      TrackMarker.getAngle m (ox, oy) ref < 360) ∧
    (TrackMarker.refVec (ox, oy) none = (1, 0) ∧
      (¬(m.x - ox = 0 ∧ m.y - oy = 0) →
        TrackMarker.getAngle m (ox, oy) none =
          qlineAngle (m.x - ox) (m.y - oy))) ∧
    (¬((TrackMarker.refVec (ox, oy) ref).1 = 0 ∧
          (TrackMarker.refVec (ox, oy) ref).2 = 0) →
      ¬(m.x - ox = 0 ∧ m.y - oy = 0) →
      ∃ k : ℤ, TrackMarker.getAngle m (ox, oy) ref =
        qAngleDeg (m.x - ox) (m.y - oy) -
          qAngleDeg (TrackMarker.refVec (ox, oy) ref).1
            (TrackMarker.refVec (ox, oy) ref).2 + 360 * k) ∧
    (∀ c : ℝ, 0 < c →
      ¬((TrackMarker.refVec (ox, oy) ref).1 = 0 ∧
          (TrackMarker.refVec (ox, oy) ref).2 = 0) →
      m.x - ox = -(c * (TrackMarker.refVec (ox, oy) ref).1) →
      m.y - oy = -(c * (TrackMarker.refVec (ox, oy) ref).2) →
      TrackMarker.getAngle m (ox, oy) ref = 180) := by
  refine ⟨⟨angleTo_nonneg _ _ _ _, angleTo_lt _ _ _ _⟩, ⟨?_, ?_⟩, ?_, ?_⟩
  · simp [TrackMarker.refVec]
  · intro h
    have h10 : TrackMarker.refVec (ox, oy) none = (1, 0) := by
      simp [TrackMarker.refVec]
    unfold TrackMarker.getAngle
    rw [h10]
    exact angleTo_polar _ _ h
  · intro h1 h2
    exact angleTo_congr _ _ _ _ h1 h2
  · intro c hc hv hx hy
    have hm : ¬(m.x - ox = 0 ∧ m.y - oy = 0) := by
      rintro ⟨ha, hb⟩
      apply hv
      rw [hx] at ha
      rw [hy] at hb
      constructor
      · have h0 : c * (TrackMarker.refVec (ox, oy) ref).1 = 0 := by linarith
        exact (mul_eq_zero.mp h0).resolve_left hc.ne'
      · have h0 : c * (TrackMarker.refVec (ox, oy) ref).2 = 0 := by linarith
        exact (mul_eq_zero.mp h0).resolve_left hc.ne'
    obtain ⟨k1, hk1⟩ := qAngleDeg_antiparallel c
      (TrackMarker.refVec (ox, oy) ref).1
      (TrackMarker.refVec (ox, oy) ref).2 hc hv
    obtain ⟨k2, hk2⟩ := angleTo_congr
      (TrackMarker.refVec (ox, oy) ref).1
      (TrackMarker.refVec (ox, oy) ref).2
      (m.x - ox) (m.y - oy) hv hm
    have hb1 := angleTo_nonneg (TrackMarker.refVec (ox, oy) ref).1
      (TrackMarker.refVec (ox, oy) ref).2 (m.x - ox) (m.y - oy)
    have hb2 := angleTo_lt (TrackMarker.refVec (ox, oy) ref).1
      (TrackMarker.refVec (ox, oy) ref).2 (m.x - ox) (m.y - oy)
    have hA : angleTo (TrackMarker.refVec (ox, oy) ref).1
        (TrackMarker.refVec (ox, oy) ref).2 (m.x - ox) (m.y - oy) =
        180 + 360 * ((k1 + k2 : ℤ) : ℝ) := by
      rw [hk2, hx, hy, hk1]
      push_cast
      ring
    rw [hA] at hb1 hb2
    have ht0 : k1 + k2 = 0 := by
      have hlt : ((k1 + k2 : ℤ) : ℝ) < 1 := by linarith
      have hgt : (-1 : ℝ) < ((k1 + k2 : ℤ) : ℝ) := by linarith
      have hlt2 : k1 + k2 < 1 := by exact_mod_cast hlt
      have hgt2 : -1 < k1 + k2 := by exact_mod_cast hgt
      omega
    show angleTo (TrackMarker.refVec (ox, oy) ref).1
      (TrackMarker.refVec (ox, oy) ref).2 (m.x - ox) (m.y - oy) = 180
    rw [hA, ht0]
    norm_num

/-- Witness for C3: the marker at (-3, 0) seen from the origin (0, 0) is
antiparallel to the reference marker at (2, 0), and reports exactly 180. -/
theorem trackMarker_getAngle_ccw_witness :
    TrackMarker.getAngle ⟨1, -3, 0, none⟩ (0, 0) (some ⟨2, 2, 0, none⟩) =
      180 := by
  apply (trackMarker_getAngle_ccw ⟨1, -3, 0, none⟩ 0 0
    (some ⟨2, 2, 0, none⟩)).2.2.2 (3 / 2)
  · norm_num
  · norm_num [TrackMarker.refVec]
  · norm_num [TrackMarker.refVec]
  · norm_num [TrackMarker.refVec]
